import Mathlib

/-!
Verification of the beads-mcp client access layer (workspace resolution,
endpoint discovery, wire protocol, connection pool, health probing and
backoff reconnection) against its natural-language specification.

The Python sources embedded here are
src/integrations/beads-mcp/src/beads_mcp/tools.py and
src/integrations/beads-mcp/src/beads_mcp/bd_daemon_client.py.
Paths are modelled as lists of components below the filesystem root, the
filesystem and the daemon as explicit environments, and each Python
exception as a constructor carrying the exact message the raise site
builds.
-/

set_option autoImplicit false
set_option maxRecDepth 100000
set_option linter.unnecessarySeqFocus false

deriving instance DecidableEq for Except

namespace Beads

/-- Exceptions raised by the client layer.  Each constructor stands for one
Python exception class (DaemonNotRunningError, DaemonConnectionError, the
DaemonError base class, BdError) and carries the message string the raise
site formats. -/
inductive PyExc where
  | daemonNotRunning (msg : String)
  | daemonConnection (msg : String)
  | daemonError (msg : String)
  | bdError (msg : String)
  deriving Repr, DecidableEq

/-- Name of the marker subdirectory, ".beads" in the source. -/
def beadsDirName : String := ".beads"

/-- Name of the rendezvous file, "bd.sock" in the source. -/
def sockName : String := "bd.sock"

/-- Abstract filesystem for the endpoint discovery walk: which paths are
directories, which paths exist, and the home directory of the caller.
A path is the list of its components below the root. -/
structure Fsys where
  isDir : List String → Bool
  fileExists : List String → Bool
  home : List String

/-- Message of the DaemonNotRunningError raised when no socket is found,
verbatim from BdDaemonClient._find_socket_path. -/
def noSockMsg : String :=
  "Daemon socket not found. Is the daemon running? Try: bd daemon (local) or bd daemon --global"

/-- The upward walk of BdDaemonClient._find_socket_path.  The argument is
the reversed component list of the current directory, so that moving to the
parent (Path.parent, i.e. dropping the last component) is structural
recursion.  At each level: if the ".beads" subdirectory exists, either
return the socket path inside it or stop the walk (the source breaks out of
the loop to the global check); otherwise move up, stopping at the root
(whose parent equals itself). -/
def walkUpRev (fs : Fsys) (rev : List String) : Option (List String) :=
  let current := rev.reverse
  if fs.isDir (current ++ [beadsDirName]) then
    if fs.fileExists (current ++ [beadsDirName, sockName]) then
      some (current ++ [beadsDirName, sockName])
    else
      none
  else
    match rev with
    | [] => none
    | _ :: rest => walkUpRev fs rest

/-- BdDaemonClient._find_socket_path: explicit socket path short-circuit,
then the upward walk from the resolved working directory, then the global
fallback under the home directory, else DaemonNotRunningError. -/
def findSocketPath (fs : Fsys) (socketPath : Option (List String)) (workingDir : List String) :
    Except PyExc (List String) :=
  match socketPath with
  | some p => .ok p
  | none =>
    match walkUpRev fs workingDir.reverse with
    | some sock => .ok sock
    | none =>
      let globalSock := fs.home ++ [beadsDirName, sockName]
      if fs.fileExists globalSock then .ok globalSock
      else .error (.daemonNotRunning noSockMsg)

/-- The discovery procedure exactly as the claim words it: the walk keeps
climbing past a marker directory that lacks the rendezvous file, and a find
returns the socket path together with the directory where it was found.
Written only to be compared against findSocketPath, which is the embedding
of the source. -/
def walkUpRevClaim (fs : Fsys) (rev : List String) : Option (List String × List String) :=
  let current := rev.reverse
  if fs.isDir (current ++ [beadsDirName]) && fs.fileExists (current ++ [beadsDirName, sockName]) then
    some (current ++ [beadsDirName, sockName], current)
  else
    match rev with
    | [] => none
    | _ :: rest => walkUpRevClaim fs rest

/-- Endpoint discovery as claimed: marker-with-socket at any ancestor level
is found, and the result carries the directory where it was found. -/
def findSocketPathClaim (fs : Fsys) (workingDir : List String) :
    Except PyExc (List String × List String) :=
  match walkUpRevClaim fs workingDir.reverse with
  | some r => .ok r
  | none =>
    let globalSock := fs.home ++ [beadsDirName, sockName]
    if fs.fileExists globalSock then .ok (globalSock, fs.home)
    else .error (.daemonNotRunning noSockMsg)

/-- The list of directories visited by an upward walk starting at p:
p itself, then its ancestors, down to the root. -/
def levelsRev : List String → List (List String)
  | [] => [[]]
  | c :: rest => (c :: rest).reverse :: levelsRev rest

/-- Upward walk order on plain (unreversed) paths. -/
def levelsList (p : List String) : List (List String) :=
  levelsRev p.reverse

/-- Filesystem refuting C2: a marker directory without the rendezvous file
at /a/b, a marker directory holding the rendezvous file at /a, and no
global socket under the home directory. -/
def c2Fs : Fsys where
  isDir p := p == ["a", "b", beadsDirName] || p == ["a", beadsDirName]
  fileExists p := p == ["a", beadsDirName, sockName]
  home := ["home", "user"]

/-- Environment for workspace canonicalization: os.path.realpath,
os.path.exists, the outcome of running git rev-parse --show-toplevel at a
directory (none models a nonzero exit status as well as any exception,
both of which _resolve_workspace_root turns into the abspath fallback),
and os.path.abspath. -/
structure PathEnv where
  realpath : String → String
  pathExists : String → Bool
  gitToplevel : String → Option String
  abspath : String → String

/-- tools._resolve_workspace_root: the git toplevel when git rev-parse
succeeds, otherwise os.path.abspath of the input. -/
def resolveWorkspaceRoot (env : PathEnv) (path : String) : String :=
  match env.gitToplevel path with
  | some root => root
  | none => env.abspath path

/-- tools._canonicalize_path: resolve symlinks, keep the real path when it
directly contains a .beads entry, else fall back to the git toplevel
resolution.  os.path.join(real, ".beads") is modelled as appending
"/.beads". -/
def canonicalizePath (env : PathEnv) (path : String) : String :=
  let real := env.realpath path
  if env.pathExists (real ++ "/" ++ beadsDirName) then real
  else resolveWorkspaceRoot env real

/-- Concrete canonicalization environment for the C3 witness: no
symlinks, no marker entries, no enclosing git checkout. -/
def c3Env : PathEnv where
  realpath p := p
  pathExists _ := false
  gitToplevel _ := none
  abspath p := p

/-- A JSON value as far as this layer inspects it: the default empty
object, or an opaque payload. -/
inductive JVal where
  | emptyObject
  | payload (s : String)
  deriving Repr, DecidableEq

/-- Response envelope: the success flag and the optional error and data
fields of the single JSON object the daemon sends back. -/
structure RespEnvelope where
  success : Bool
  error : Option String
  data : Option JVal
  deriving Repr, DecidableEq

/-- Request envelope built by _send_request: operation name, flat
argument map, calling directory, optional actor tag. -/
structure ReqEnvelope where
  operation : String
  args : List (String × String)
  cwd : List String
  actor : Option String
  deriving Repr, DecidableEq

/-- Connection-handle data of BdDaemonClient: optional explicit socket
path, working directory, optional actor, timeout in seconds. -/
structure DaemonClientData where
  socketPath : Option (List String)
  workingDir : List String
  actor : Option String
  timeout : ℚ
  deriving Repr, DecidableEq

/-- BdDaemonClient with the constructor defaults: timeout 30.0 seconds. -/
def defaultClient (workingDir : List String) : DaemonClientData :=
  { socketPath := none, workingDir := workingDir, actor := none, timeout := 30 }

/-- What the operating system does when the client opens the unix
socket. -/
inductive ConnectOutcome where
  | opened
  | fileMissing
  | timedOut
  | failed (msg : String)
  deriving Repr, DecidableEq

/-- What reader.readline() yields once the channel is open: a parsed
response envelope, an empty read (peer closed without responding), or no
line within the timeout. -/
inductive ReadOutcome where
  | line (resp : RespEnvelope)
  | emptyRead
  | timedOut
  deriving Repr, DecidableEq

/-- Observable outcome of one _send_request call: the returned data or
raised exception, whether the channel ended closed, the request envelope
written (when one was), and the timeout values passed to the two
asyncio.wait_for calls (none when that phase was never reached). -/
structure ExchangeResult where
  result : Except PyExc JVal
  channelClosed : Bool
  requestSent : Option ReqEnvelope
  appliedConnectTimeout : Option ℚ
  appliedReadTimeout : Option ℚ
  deriving Repr, DecidableEq

/-- Rendering of a path for use inside error message strings. -/
def pathToString (p : List String) : String :=
  "/" ++ String.intercalate "/" p

/-- The connect/write/read/decode part of BdDaemonClient._send_request,
after the socket path has been discovered.  Both asyncio.wait_for calls
receive self.timeout, and the finally block closes the channel on every
path that opened it. -/
def sendRequestCore (c : DaemonClientData) (operation : String)
    (args : List (String × String)) (sockPath : List String)
    (conn : ConnectOutcome) (readRes : ReadOutcome) : ExchangeResult :=
  match conn with
  | .fileMissing =>
      { result := .error (.daemonNotRunning
          ("Daemon socket not found: " ++ pathToString sockPath ++ ". Is the daemon running?")),
        channelClosed := false, requestSent := none,
        appliedConnectTimeout := some c.timeout, appliedReadTimeout := none }
  | .timedOut =>
      { result := .error (.daemonConnection
          ("Timeout connecting to daemon at " ++ pathToString sockPath)),
        channelClosed := false, requestSent := none,
        appliedConnectTimeout := some c.timeout, appliedReadTimeout := none }
  | .failed msg =>
      { result := .error (.daemonConnection
          ("Failed to connect to daemon at " ++ pathToString sockPath ++ ": " ++ msg)),
        channelClosed := false, requestSent := none,
        appliedConnectTimeout := some c.timeout, appliedReadTimeout := none }
  | .opened =>
      let req : ReqEnvelope :=
        { operation := operation, args := args, cwd := c.workingDir, actor := c.actor }
      match readRes with
      | .timedOut =>
          { result := .error (.daemonError
              ("Timeout waiting for response from daemon (operation: " ++ operation ++ ")")),
            channelClosed := true, requestSent := some req,
            appliedConnectTimeout := some c.timeout, appliedReadTimeout := some c.timeout }
      | .emptyRead =>
          { result := .error (.daemonError "Daemon closed connection without responding"),
            channelClosed := true, requestSent := some req,
            appliedConnectTimeout := some c.timeout, appliedReadTimeout := some c.timeout }
      | .line resp =>
          if resp.success then
            { result := .ok (resp.data.getD .emptyObject),
              channelClosed := true, requestSent := some req,
              appliedConnectTimeout := some c.timeout, appliedReadTimeout := some c.timeout }
          else
            { result := .error (.daemonError
                ("Daemon returned error: " ++ resp.error.getD "Unknown error")),
              channelClosed := true, requestSent := some req,
              appliedConnectTimeout := some c.timeout, appliedReadTimeout := some c.timeout }

/-- BdDaemonClient._send_request in full: discover the socket path (a
DaemonNotRunningError from discovery propagates before any channel is
opened), then perform the exchange. -/
def sendRequest (fs : Fsys) (c : DaemonClientData) (operation : String)
    (args : List (String × String)) (conn : ConnectOutcome) (readRes : ReadOutcome) :
    ExchangeResult :=
  match findSocketPath fs c.socketPath c.workingDir with
  | .error e =>
      { result := .error e, channelClosed := false, requestSent := none,
        appliedConnectTimeout := none, appliedReadTimeout := none }
  | .ok sp => sendRequestCore c operation args sp conn readRes

/-- BdDaemonClient.ping: the minimal liveness exchange, operation "ping"
with empty args. -/
def pingExchange (fs : Fsys) (c : DaemonClientData) (conn : ConnectOutcome)
    (readRes : ReadOutcome) : ExchangeResult :=
  sendRequest fs c "ping" [] conn readRes

/-- Pooled client as the pool logic observes it: an identity, whether it
has a ping liveness operation (daemon client), and whether it has a
_check_version operation (CLI client). -/
structure PClient where
  cid : Nat
  hasPing : Bool
  hasCheckVersion : Bool
  deriving Repr, DecidableEq

/-- Events observable during handle acquisition.  exchange is one full
protocol request/response over the socket; sleep is an asyncio.sleep of
the given seconds; the pool and version-cache mutations are in-memory. -/
inductive Ev where
  | lockAcquire
  | lockRelease
  | exchange (operation : String)
  | sleep (d : ℚ)
  | construct (cid : Nat)
  | poolLookup (k : String)
  | poolDelete (k : String)
  | vcDiscard (k : String)
  | poolInsert (k : String) (cid : Nat)
  | vcAdd (k : String)
  | versionCheckCall (cid : Nat)
  deriving Repr, DecidableEq

/-- tools._health_check_client: clients without a ping attribute are
unconditionally healthy; for the others the boolean says whether the ping
exchange succeeded (any exception maps to false). -/
def healthCheckClient (pingOk : Bool) (c : PClient) : Bool :=
  if c.hasPing then pingOk else true

/-- Events of one health check: the ping exchange when the client has a
ping operation, nothing otherwise. -/
def probeEvents (c : PClient) : List Ev :=
  if c.hasPing then [.exchange "ping"] else []

/-- Behaviour of one reconnection attempt: create_bd_client raised, or it
built the given client, whose health-check ping then succeeded or not. -/
inductive AttemptOutcome where
  | raises
  | built (c : PClient) (pingOk : Bool)
  deriving Repr, DecidableEq

/-- Backoff base of _reconnect_client: 0.1 seconds. -/
def backoffBase : ℚ := 1 / 10

/-- Message of the terminal BdError of _reconnect_client, naming the
attempt count. -/
def reconnectFailMsg (maxRetries : Nat) : String :=
  "Failed to connect to daemon after " ++ toString maxRetries ++
    " attempts. The daemon may be stopped or unresponsive."

/-- The retry loop of tools._reconnect_client, recursing on the number of
remaining attempts (the call maintains attempt + remaining = maxRetries).
A raising construction sleeps backoffBase * 2 ^ attempt before the next
attempt unless it was the last one; a built-but-unhealthy client causes no
sleep; a healthy client is returned at once.  When the attempts are
exhausted, the terminal BdError naming the attempt count is raised. -/
def reconnectLoop (outcomes : Nat → AttemptOutcome) (maxRetries : Nat) :
    Nat → Nat → List Ev × Except PyExc PClient
  | _, 0 => ([], .error (.bdError (reconnectFailMsg maxRetries)))
  | attempt, remaining + 1 =>
      match outcomes attempt with
      | .raises =>
          let sleeps : List Ev :=
            if attempt < maxRetries - 1 then [.sleep (backoffBase * 2 ^ attempt)] else []
          let rest := reconnectLoop outcomes maxRetries (attempt + 1) remaining
          (sleeps ++ rest.1, rest.2)
      | .built c pingOk =>
          let evs0 := Ev.construct c.cid :: probeEvents c
          if healthCheckClient pingOk c then
            (evs0, .ok c)
          else
            let rest := reconnectLoop outcomes maxRetries (attempt + 1) remaining
            (evs0 ++ rest.1, rest.2)

/-- tools._reconnect_client: the loop over range(max_retries); the
parameter default in the source is max_retries = 3. -/
def reconnectClient (outcomes : Nat → AttemptOutcome) (maxRetries : Nat) :
    List Ev × Except PyExc PClient :=
  reconnectLoop outcomes maxRetries 0 maxRetries

/-- The sleep durations appearing in an event list, in order. -/
def sleepsOf (evs : List Ev) : List ℚ :=
  evs.filterMap fun e => match e with | .sleep d => some d | _ => none

/-- Client constructed by the successful attempt of the C4 counterexample
run. -/
def c4Client : PClient := { cid := 7, hasPing := true, hasCheckVersion := false }

/-- Attempt outcomes with exactly one construction failure followed by a
success. -/
def c4Outcomes : Nat → AttemptOutcome
  | 0 => .raises
  | _ => .built c4Client true

/-- Attempt outcomes of the C4 witness: two construction failures, then a
healthy construction. -/
def c4WitnessOutcomes : Nat → AttemptOutcome
  | 0 => .raises
  | 1 => .raises
  | _ => .built c4Client true

/-- Pool state: the key-to-client mapping (a Python dict, modelled as an
association list that every state built here keeps free of duplicate
keys) and the set of workspaces whose version was already checked,
modelled by its membership predicate. -/
structure PoolState where
  pool : List (String × PClient)
  versionChecked : String → Bool

/-- Python dict deletion, del pool[k]. -/
def poolErase (pool : List (String × PClient)) (k : String) : List (String × PClient) :=
  pool.eraseP (fun kv => kv.1 == k)

/-- Python dict insertion pool[k] = c for a key currently absent. -/
def poolAppend (pool : List (String × PClient)) (k : String) (c : PClient) :
    List (String × PClient) :=
  pool ++ [(k, c)]

/-- Environment of one _get_client call: whether a ping of the cached
client would succeed, the behaviour of each reconnection attempt, and the
result of create_bd_client on a first connection (error carries the
message of an exception propagating out of that unprotected call). -/
structure GetClientEnv where
  cachedPingOk : Bool
  reconnectOutcomes : Nat → AttemptOutcome
  freshClient : Except String PClient

/-- The critical section of tools._get_client, executed under _pool_lock:
look the canonical workspace up in the pool; health-check a cached client
and return it when healthy; on a failed probe delete the entry, discard
the version-checked marker, reconnect (three attempts) and install the
replacement; on a miss construct a fresh client and install it with no
probe.  Returns the events inside the lock, the state after the critical
section, and the result. -/
def getClientLocked (st : PoolState) (canonical : String) (env : GetClientEnv) :
    List Ev × PoolState × Except PyExc PClient :=
  match st.pool.lookup canonical with
  | some cached =>
      let evs0 := Ev.poolLookup canonical :: probeEvents cached
      if healthCheckClient env.cachedPingOk cached then
        (evs0, st, .ok cached)
      else
        let pool1 := poolErase st.pool canonical
        let discardEvs := if st.versionChecked canonical then [Ev.vcDiscard canonical] else []
        let vc1 : String → Bool := fun k => if k == canonical then false else st.versionChecked k
        let recon := reconnectClient env.reconnectOutcomes 3
        match recon.2 with
        | .ok nc =>
            (evs0 ++ [Ev.poolDelete canonical] ++ discardEvs ++ recon.1 ++
               [Ev.poolInsert canonical nc.cid],
             ⟨poolAppend pool1 canonical nc, vc1⟩, .ok nc)
        | .error e =>
            (evs0 ++ [Ev.poolDelete canonical] ++ discardEvs ++ recon.1,
             ⟨pool1, vc1⟩, .error e)
  | none =>
      match env.freshClient with
      | .ok c =>
          ([Ev.poolLookup canonical, Ev.construct c.cid, Ev.poolInsert canonical c.cid],
           ⟨poolAppend st.pool canonical c, st.versionChecked⟩, .ok c)
      | .error m =>
          ([Ev.poolLookup canonical], st, .error (.bdError m))

/-- tools._get_client around the critical section: acquire and release
_pool_lock (released also when an exception propagates), then run the
once-per-workspace version check outside the lock.  The possible
exception of _check_version itself is not modelled; no claim depends on
it. -/
def getClientRun (st : PoolState) (canonical : String) (env : GetClientEnv) :
    List Ev × PoolState × Except PyExc PClient :=
  let locked := getClientLocked st canonical env
  match locked.2.2 with
  | .error e =>
      (Ev.lockAcquire :: (locked.1 ++ Ev.lockRelease :: []), locked.2.1, .error e)
  | .ok c =>
      let st2 := locked.2.1
      if st2.versionChecked canonical then
        (Ev.lockAcquire :: (locked.1 ++ Ev.lockRelease :: []), st2, .ok c)
      else
        (Ev.lockAcquire :: (locked.1 ++ Ev.lockRelease ::
           ((if c.hasCheckVersion then [Ev.versionCheckCall c.cid] else []) ++
             [Ev.vcAdd canonical])),
         ⟨st2.pool, fun k => if k == canonical then true else st2.versionChecked k⟩, .ok c)

/-- Message of the BdError raised by _get_client when no workspace can be
determined, verbatim from the source. -/
def noWorkspaceMsg : String :=
  "No workspace set. Either provide workspace_root parameter or call set_context() first."

/-- Python string truthiness of an optional string. -/
def pyTruthy : Option String → Bool
  | none => false
  | some s => !s.isEmpty

/-- Workspace resolution at the top of _get_client: the request-scoped
ContextVar value or else the BEADS_WORKING_DIR environment value; when
both are unset (or empty) the no-workspace BdError is raised.  No further
fallback exists in the source. -/
def resolveWorkspace (ctxWorkspace envWorkspace : Option String) : Except PyExc String :=
  let workspace := if pyTruthy ctxWorkspace then ctxWorkspace else envWorkspace
  if pyTruthy workspace then .ok (workspace.getD "") else .error (.bdError noWorkspaceMsg)

/-- tools._get_client end to end: resolve the workspace, canonicalize it,
then acquire a handle through the pool. -/
def getClient (ctxWorkspace envWorkspace : Option String) (penv : PathEnv)
    (st : PoolState) (env : GetClientEnv) : List Ev × PoolState × Except PyExc PClient :=
  match resolveWorkspace ctxWorkspace envWorkspace with
  | .error e => ([], st, .error e)
  | .ok w => getClientRun st (canonicalizePath penv w) env

/-- True for lock acquisition and release events. -/
def isLockEv : Ev → Bool
  | .lockAcquire => true
  | .lockRelease => true
  | _ => false

/-- True for protocol exchanges over the socket. -/
def isExchangeEv : Ev → Bool
  | .exchange _ => true
  | _ => false

/-- True for events that read or write the pool mapping. -/
def isPoolEv : Ev → Bool
  | .poolLookup _ => true
  | .poolDelete _ => true
  | .poolInsert _ _ => true
  | _ => false

/-- Scan of a trace: does a protocol exchange occur while the lock is
held?  The boolean argument is the lock state at the start. -/
def exchangeWhileLocked : Bool → List Ev → Bool
  | _, [] => false
  | _, .lockAcquire :: rest => exchangeWhileLocked true rest
  | _, .lockRelease :: rest => exchangeWhileLocked false rest
  | held, e :: rest => (held && isExchangeEv e) || exchangeWhileLocked held rest

/-- Scan of a trace: does a pool access occur while the lock is not
held? -/
def poolAccessOutsideLock : Bool → List Ev → Bool
  | _, [] => false
  | _, .lockAcquire :: rest => poolAccessOutsideLock true rest
  | _, .lockRelease :: rest => poolAccessOutsideLock false rest
  | held, e :: rest => (!held && isPoolEv e) || poolAccessOutsideLock held rest

/-- Lock state after scanning an event list. -/
def lockHeldAfter : Bool → List Ev → Bool
  | held, [] => held
  | _, .lockAcquire :: rest => lockHeldAfter true rest
  | _, .lockRelease :: rest => lockHeldAfter false rest
  | held, _ :: rest => lockHeldAfter held rest

/-- Daemon handle cached in the pool for the C1 counterexample. -/
def c1Client : PClient := { cid := 1, hasPing := true, hasCheckVersion := false }

/-- Pool with one healthy cached daemon handle. -/
def c1State : PoolState :=
  { pool := [("/w", c1Client)], versionChecked := fun k => k == "/w" }

/-- Environment of the C1 counterexample: the cached handle is healthy. -/
def c1Env : GetClientEnv :=
  { cachedPingOk := true, reconnectOutcomes := fun _ => .raises, freshClient := .error "unused" }

/-- Old unhealthy daemon handle of the C8 witness. -/
def c8OldClient : PClient := { cid := 3, hasPing := true, hasCheckVersion := false }

/-- Replacement handle produced by the reconnector in the C8 witness. -/
def c8NewClient : PClient := { cid := 4, hasPing := true, hasCheckVersion := false }

/-- Pool with one cached handle, version already checked. -/
def c8State : PoolState :=
  { pool := [("/w", c8OldClient)], versionChecked := fun k => k == "/w" }

/-- Environment of the C8 witness eviction: the cached ping fails, the
first reconnection attempt builds a healthy replacement. -/
def c8Env : GetClientEnv :=
  { cachedPingOk := false, reconnectOutcomes := fun _ => .built c8NewClient true,
    freshClient := .error "unused" }

/-- Handle without a liveness operation (the CLI fallback client) for the
C9 witness. -/
def c9CliClient : PClient := { cid := 2, hasPing := false, hasCheckVersion := true }

theorem levelsList_nil : levelsList [] = [[]] := rfl

theorem levelsList_concat (l : List String) (a : String) :
    levelsList (l ++ [a]) = (l ++ [a]) :: levelsList l := by
  simp [levelsList, levelsRev, List.reverse_append]

/-- The walk of the source, characterised by the first visited level that
carries the marker directory: the walk stops there, succeeding only when
that first marker also contains the rendezvous file. -/
theorem walkUpRev_eq_find (fs : Fsys) (p : List String) :
    walkUpRev fs p.reverse =
      match (levelsList p).find? (fun lvl => fs.isDir (lvl ++ [beadsDirName])) with
      | some lvl =>
          if fs.fileExists (lvl ++ [beadsDirName, sockName]) then
            some (lvl ++ [beadsDirName, sockName])
          else none
      | none => none := by
  induction p using List.reverseRecOn with
  | nil =>
      cases hd : fs.isDir [beadsDirName] <;>
        simp [walkUpRev, levelsList_nil, List.find?_cons, hd]
  | append_singleton l a ih =>
      rw [levelsList_concat, List.find?_cons]
      rw [show (l ++ [a]).reverse = a :: l.reverse by simp]
      rw [walkUpRev]
      cases hd : fs.isDir (l ++ [a, beadsDirName]) <;>
        simp_all [List.append_assoc]

/-- C2 counterexample: starting at /a/b, the source walk stops at the
marker /a/b/.beads although it lacks bd.sock, so discovery fails with the
DaemonNotRunningError even though /a/.beads/bd.sock exists; the discovery
procedure as claimed would keep climbing and return that socket together
with its directory.  Moreover the error message does not contain the
marker directory name that the claim requires as guidance. -/
theorem c2_counterexample :
    findSocketPath c2Fs none ["a", "b"] = .error (.daemonNotRunning noSockMsg) ∧
    findSocketPathClaim c2Fs ["a", "b"] = .ok (["a", beadsDirName, sockName], ["a"]) ∧
    ¬ List.IsInfix beadsDirName.toList noSockMsg.toList := by
  refine ⟨rfl, rfl, by decide⟩

/-- C2 (amended): endpoint discovery walks upward from the workspace
directory and stops at the first level carrying the marker subdirectory
.beads; if that marker contains the rendezvous file bd.sock the path of
that file is returned (the directory where it was found is its parent, not
a separate return value); otherwise — first marker without the socket, or
no marker up to the filesystem root — the well-known global location under
the home directory of the caller is checked and returned if present; else
discovery fails with a no-endpoint error whose message suggests starting
the background service (bd daemon), and discovery never returns an empty
endpoint. -/
theorem c2_endpoint_discovery (fs : Fsys) (workingDir : List String) :
    (findSocketPath fs none workingDir =
      match (levelsList workingDir).find? (fun lvl => fs.isDir (lvl ++ [beadsDirName])) with
      | some lvl =>
          if fs.fileExists (lvl ++ [beadsDirName, sockName]) then
            .ok (lvl ++ [beadsDirName, sockName])
          else if fs.fileExists (fs.home ++ [beadsDirName, sockName]) then
            .ok (fs.home ++ [beadsDirName, sockName])
          else .error (.daemonNotRunning noSockMsg)
      | none =>
          if fs.fileExists (fs.home ++ [beadsDirName, sockName]) then
            .ok (fs.home ++ [beadsDirName, sockName])
          else .error (.daemonNotRunning noSockMsg)) ∧
    List.IsInfix "bd daemon".toList noSockMsg.toList ∧
    (∀ p, findSocketPath fs none workingDir = .ok p → p ≠ []) := by
  have hw := walkUpRev_eq_find fs workingDir
  refine ⟨?_, by decide, ?_⟩
  · simp only [findSocketPath]
    rw [hw]
    cases hfind : (levelsList workingDir).find? (fun lvl => fs.isDir (lvl ++ [beadsDirName])) with
    | none => rfl
    | some lvl =>
        by_cases hsock : fs.fileExists (lvl ++ [beadsDirName, sockName]) <;> simp [hsock]
  · intro p hp hnil
    subst hnil
    simp only [findSocketPath] at hp
    rw [hw] at hp
    cases hfind : (levelsList workingDir).find? (fun lvl => fs.isDir (lvl ++ [beadsDirName])) with
    | none =>
        rw [hfind] at hp
        by_cases hg : fs.fileExists (fs.home ++ [beadsDirName, sockName]) <;> simp_all
    | some lvl =>
        rw [hfind] at hp
        by_cases hsock : fs.fileExists (lvl ++ [beadsDirName, sockName]) <;>
          by_cases hg : fs.fileExists (fs.home ++ [beadsDirName, sockName]) <;> simp_all

/-- C2 witness: the amended discovery theorem applied to a concrete
filesystem where the walk finds the socket at /a. -/
theorem c2_witness : (["a", beadsDirName, sockName] : List String) ≠ [] :=
  (c2_endpoint_discovery c2Fs ["a"]).2.2 ["a", beadsDirName, sockName] rfl

/-- C3 (confirmed): for every input path, canonicalization (a) resolves
symlinks to a real path; (b) returns it unchanged when it directly
contains the local state marker; (c) otherwise returns the enclosing
version-control root when git reports one; (d) otherwise returns the
resolved real path itself (os.path.abspath being the identity on the
already-absolute realpath output); being a total function of the
environment it never raises — every input produces a canonical string. -/
theorem c3_canonicalization (env : PathEnv)
    (habs : ∀ p, env.abspath (env.realpath p) = env.realpath p) (path : String) :
    (env.pathExists (env.realpath path ++ "/" ++ beadsDirName) = true →
      canonicalizePath env path = env.realpath path) ∧
    (env.pathExists (env.realpath path ++ "/" ++ beadsDirName) = false →
      ∀ r, env.gitToplevel (env.realpath path) = some r →
        canonicalizePath env path = r) ∧
    (env.pathExists (env.realpath path ++ "/" ++ beadsDirName) = false →
      env.gitToplevel (env.realpath path) = none →
      canonicalizePath env path = env.realpath path) := by
  refine ⟨fun h => by simp [canonicalizePath, h], fun h r hr => ?_, fun h hn => ?_⟩
  · simp [canonicalizePath, h, resolveWorkspaceRoot, hr]
  · simp [canonicalizePath, h, resolveWorkspaceRoot, hn, habs]

/-- C3 witness: in the concrete environment, canonicalizing /tmp/proj
lands in case (d) and returns the path itself. -/
theorem c3_witness : canonicalizePath c3Env "/tmp/proj" = "/tmp/proj" :=
  (c3_canonicalization c3Env (fun _ => rfl) "/tmp/proj").2.2 rfl rfl

/-- C7 (confirmed): a timeout in the connect phase raises
DaemonConnectionError (a connection-failure condition) while a timeout in
the response-read phase raises the distinct request-timeout DaemonError;
the two exceptions differ for every socket path and operation. -/
theorem c7_timeout_distinctness (c : DaemonClientData) (operation : String)
    (args : List (String × String)) (sockPath : List String) (readRes : ReadOutcome) :
    (sendRequestCore c operation args sockPath .timedOut readRes).result =
      .error (.daemonConnection ("Timeout connecting to daemon at " ++ pathToString sockPath)) ∧
    (sendRequestCore c operation args sockPath .opened .timedOut).result =
      .error (.daemonError
        ("Timeout waiting for response from daemon (operation: " ++ operation ++ ")")) ∧
    PyExc.daemonConnection ("Timeout connecting to daemon at " ++ pathToString sockPath) ≠
      PyExc.daemonError
        ("Timeout waiting for response from daemon (operation: " ++ operation ++ ")") :=
  ⟨rfl, rfl, fun h => PyExc.noConfusion h⟩

/-- C10 (confirmed): an accepted connection followed by an empty read
raises the daemon-closed-connection DaemonError — distinct from the
connect-timeout condition by exception class and from the read-timeout
condition by message — without parsing the empty line or returning a
value, and the finally block still closes the channel. -/
theorem c10_empty_response (c : DaemonClientData) (operation : String)
    (args : List (String × String)) (sockPath : List String) :
    (sendRequestCore c operation args sockPath .opened .emptyRead).result =
      .error (.daemonError "Daemon closed connection without responding") ∧
    (sendRequestCore c operation args sockPath .opened .emptyRead).channelClosed = true ∧
    PyExc.daemonError "Daemon closed connection without responding" ≠
      PyExc.daemonConnection ("Timeout connecting to daemon at " ++ pathToString sockPath) ∧
    PyExc.daemonError "Daemon closed connection without responding" ≠
      PyExc.daemonError
        ("Timeout waiting for response from daemon (operation: " ++ operation ++ ")") := by
  refine ⟨rfl, rfl, fun h => PyExc.noConfusion h, fun h => ?_⟩
  injection h with hmsg
  have hlen := congrArg String.length hmsg
  rw [String.length_append, String.length_append] at hlen
  have h1 : ("Daemon closed connection without responding").length = 43 := by decide
  have h2 : ("Timeout waiting for response from daemon (operation: ").length = 53 := by decide
  have h3 : (")").length = 1 := by decide
  rw [h1, h2, h3] at hlen
  omega

/-- C5 counterexample: a success=false envelope with error "boom" reaches
the caller as DaemonError "Daemon returned error: boom" — the envelope
message is prefixed, not passed through verbatim. -/
theorem c5_counterexample :
    (sendRequestCore (defaultClient ["w"]) "list" [] ["w", beadsDirName, sockName] .opened
        (.line { success := false, error := some "boom", data := none })).result =
      .error (.daemonError "Daemon returned error: boom") ∧
    "Daemon returned error: boom" ≠ "boom" :=
  ⟨by decide, by decide⟩

/-- C5 (amended): a success=false response envelope is handled as a
normal, parsed answer — no connection-level exception class is raised —
and the envelope error message is embedded verbatim as the suffix of the
raised DaemonError message, after the fixed prefix
"Daemon returned error: " (an absent error field yields
"Unknown error"); the channel is closed afterwards. -/
theorem c5_application_error (c : DaemonClientData) (operation : String)
    (args : List (String × String)) (sockPath : List String) (resp : RespEnvelope)
    (e : String) (hs : resp.success = false) (he : resp.error = some e) :
    (sendRequestCore c operation args sockPath .opened (.line resp)).result =
      .error (.daemonError ("Daemon returned error: " ++ e)) ∧
    (sendRequestCore c operation args sockPath .opened (.line resp)).channelClosed = true ∧
    (∀ m, PyExc.daemonError ("Daemon returned error: " ++ e) ≠ PyExc.daemonConnection m) ∧
    (∀ m, PyExc.daemonError ("Daemon returned error: " ++ e) ≠ PyExc.daemonNotRunning m) := by
  refine ⟨by simp [sendRequestCore, hs, he], by simp [sendRequestCore, hs],
    fun m h => PyExc.noConfusion h, fun m h => PyExc.noConfusion h⟩

/-- C5 witness: the amended theorem applied to a concrete failed
envelope. -/
theorem c5_witness :
    (sendRequestCore (defaultClient ["w"]) "show" [] ["w", beadsDirName, sockName] .opened
        (.line { success := false, error := some "not found", data := none })).result =
      .error (.daemonError ("Daemon returned error: " ++ "not found")) :=
  (c5_application_error (defaultClient ["w"]) "show" [] ["w", beadsDirName, sockName]
    { success := false, error := some "not found", data := none } "not found" rfl rfl).1

/-- C4 counterexample: with the default three attempts, one construction
failure (K = 1) followed by a success produces one delay, not K - 1 = 0:
the loop sleeps once (0.1 s) and then returns the new handle. -/
theorem c4_counterexample :
    reconnectClient c4Outcomes 3 =
      ([Ev.sleep (backoffBase * 2 ^ 0), Ev.construct 7, Ev.exchange "ping"], .ok c4Client) ∧
    (sleepsOf (reconnectClient c4Outcomes 3).1).length ≠ 1 - 1 := by
  exact ⟨rfl, by decide⟩

theorem sleepsOf_append (l1 l2 : List Ev) :
    sleepsOf (l1 ++ l2) = sleepsOf l1 ++ sleepsOf l2 := by
  simp [sleepsOf]

theorem sleepsOf_map_sleep (l : List Nat) (f : Nat → ℚ) :
    sleepsOf (l.map fun i => Ev.sleep (f i)) = l.map f := by
  induction l with
  | nil => rfl
  | cons a t ih => simp [sleepsOf, List.filterMap_cons] at ih ⊢; exact ih

theorem sleepsOf_probeEvents (c : PClient) : sleepsOf (probeEvents c) = [] := by
  unfold probeEvents
  cases c.hasPing <;> rfl

theorem sleepsOf_cons_construct (n : Nat) (l : List Ev) :
    sleepsOf (Ev.construct n :: l) = sleepsOf l := rfl

/-- A run whose first K attempts raise and whose attempt K builds a
healthy client: from any loop position a ≤ K with the loop invariant
attempt + remaining = maxRetries, the loop sleeps once for each remaining
failing attempt and returns the healthy client. -/
theorem reconnectLoop_success (outcomes : Nat → AttemptOutcome) (maxRetries K : Nat)
    (c : PClient) (pingOk : Bool)
    (hK : K < maxRetries)
    (hraise : ∀ i, i < K → outcomes i = .raises)
    (hbuilt : outcomes K = .built c pingOk)
    (hhealthy : healthCheckClient pingOk c = true) :
    ∀ r a, a + r = maxRetries → a ≤ K →
      reconnectLoop outcomes maxRetries a r =
        ((List.range' a (K - a)).map (fun i => Ev.sleep (backoffBase * 2 ^ i)) ++
          (Ev.construct c.cid :: probeEvents c), .ok c) := by
  intro r
  induction r with
  | zero => intro a ha haK; omega
  | succ r ih =>
      intro a ha haK
      rcases Nat.lt_or_ge a K with hlt | hge
      · have hsl : a < maxRetries - 1 := by omega
        have hKa : K - a = (K - (a + 1)) + 1 := by omega
        rw [reconnectLoop, hraise a hlt]
        simp only [hsl, if_pos]
        rw [ih (a + 1) (by omega) (by omega)]
        rw [hKa, List.range']
        simp
      · have haK2 : a = K := by omega
        subst haK2
        rw [reconnectLoop, hbuilt]
        simp [hhealthy, Nat.sub_self, List.range']

/-- A run whose attempts all raise: the loop sleeps after every failing
attempt except the last one and raises the terminal error. -/
theorem reconnectLoop_allfail (outcomes : Nat → AttemptOutcome) (maxRetries : Nat)
    (hraise : ∀ i, i < maxRetries → outcomes i = .raises) :
    ∀ r a, a + r = maxRetries →
      reconnectLoop outcomes maxRetries a r =
        ((List.range' a (maxRetries - 1 - a)).map (fun i => Ev.sleep (backoffBase * 2 ^ i)),
         .error (.bdError (reconnectFailMsg maxRetries))) := by
  intro r
  induction r with
  | zero =>
      intro a ha
      have : maxRetries - 1 - a = 0 := by omega
      rw [reconnectLoop, this]
      rfl
  | succ r ih =>
      intro a ha
      rw [reconnectLoop, hraise a (by omega)]
      by_cases hsl : a < maxRetries - 1
      · have hcnt : maxRetries - 1 - a = (maxRetries - 1 - (a + 1)) + 1 := by omega
        simp only [hsl, if_pos]
        rw [ih (a + 1) (by omega)]
        rw [hcnt, List.range']
        simp
      · have hr : r = 0 := by omega
        have hcnt : maxRetries - 1 - a = 0 := by omega
        subst hr
        simp only [hsl, if_neg, if_false]
        rw [reconnectLoop, hcnt]
        rfl

theorem backoffDelay_strictMono {i j : Nat} (hij : i < j) :
    backoffBase * 2 ^ i < backoffBase * 2 ^ j := by
  have hb : (0 : ℚ) < backoffBase := by norm_num [backoffBase]
  have hp : (2 : ℚ) ^ i < 2 ^ j := by
    apply pow_lt_pow_right₀ (by norm_num) hij
  exact mul_lt_mul_of_pos_left hp hb

/-- C4 (amended): for the reconnector with max-attempts N (default 3): a
sequence of K consecutive construction failures followed by a successful,
healthy construction (K < N) produces exactly K delays — base·2^0 through
base·2^(K−1), strictly increasing — and returns the new handle; when all
N attempts fail by raising, the terminal cannot-reach-service error naming
the attempt count is raised with no delay after the final failure, i.e.
after exactly N−1 delays. -/
theorem c4_backoff_schedule (outcomes : Nat → AttemptOutcome) (maxRetries K : Nat)
    (c : PClient) (pingOk : Bool) :
    (K < maxRetries →
      (∀ i, i < K → outcomes i = .raises) →
      outcomes K = .built c pingOk →
      healthCheckClient pingOk c = true →
      (reconnectClient outcomes maxRetries).2 = .ok c ∧
      sleepsOf (reconnectClient outcomes maxRetries).1 =
        (List.range K).map (fun i => backoffBase * 2 ^ i) ∧
      (sleepsOf (reconnectClient outcomes maxRetries).1).length = K ∧
      (sleepsOf (reconnectClient outcomes maxRetries).1).Pairwise (· < ·)) ∧
    ((∀ i, i < maxRetries → outcomes i = .raises) →
      (reconnectClient outcomes maxRetries).2 = .error (.bdError (reconnectFailMsg maxRetries)) ∧
      sleepsOf (reconnectClient outcomes maxRetries).1 =
        (List.range (maxRetries - 1)).map (fun i => backoffBase * 2 ^ i)) := by
  constructor
  · intro hK hraise hbuilt hhealthy
    have h := reconnectLoop_success outcomes maxRetries K c pingOk hK hraise hbuilt hhealthy
      maxRetries 0 (by omega) (by omega)
    have hsl : sleepsOf (reconnectClient outcomes maxRetries).1 =
        (List.range K).map (fun i => backoffBase * 2 ^ i) := by
      rw [reconnectClient, h]
      rw [sleepsOf_append, sleepsOf_map_sleep, sleepsOf_cons_construct, sleepsOf_probeEvents,
        List.append_nil, List.range_eq_range', Nat.sub_zero]
    refine ⟨by rw [reconnectClient, h], hsl, ?_, ?_⟩
    · rw [hsl, List.length_map, List.length_range]
    · rw [hsl]
      rw [List.pairwise_map]
      exact (List.pairwise_lt_range K).imp (fun hij => backoffDelay_strictMono hij)
  · intro hraise
    have h := reconnectLoop_allfail outcomes maxRetries hraise maxRetries 0 (by omega)
    constructor
    · rw [reconnectClient, h]
    · rw [reconnectClient, h]
      simp only [sleepsOf_map_sleep, List.range_eq_range']
      rfl

/-- C4 witness: the amended schedule applied to two failures followed by a
success (delays 0.1 and 0.2, then the handle) and to three raising
attempts (terminal error after two delays). -/
theorem c4_witness :
    ((reconnectClient c4WitnessOutcomes 3).2 = .ok c4Client ∧
      sleepsOf (reconnectClient c4WitnessOutcomes 3).1 =
        (List.range 2).map (fun i => backoffBase * 2 ^ i)) ∧
    ((reconnectClient (fun _ => .raises) 3).2 = .error (.bdError (reconnectFailMsg 3)) ∧
      sleepsOf (reconnectClient (fun _ => .raises) 3).1 =
        (List.range 2).map (fun i => backoffBase * 2 ^ i)) := by
  have h1 := (c4_backoff_schedule c4WitnessOutcomes 3 2 c4Client true).1 (by decide)
    (by decide) rfl rfl
  have h2 := (c4_backoff_schedule (fun _ => .raises) 3 0 c4Client true).2 (fun i _ => rfl)
  exact ⟨⟨h1.1, h1.2.1⟩, h2⟩

/-- C6: with the explicit workspace parameter unset and the ambient
BEADS_WORKING_DIR default unset, _get_client raises the no-workspace
BdError at once — regardless of the filesystem, the pool state and the
daemon environment — performing no inference from the current directory.
The third resolution step that the claim (and the test suite of the
repository) requires does not exist in the source. -/
theorem c6_no_workspace_behavior (penv : PathEnv) (st : PoolState) (env : GetClientEnv) :
    getClient none none penv st env = ([], st, .error (.bdError noWorkspaceMsg)) := rfl

theorem lockHeldAfter_append (b : Bool) (l1 l2 : List Ev) :
    lockHeldAfter b (l1 ++ l2) = lockHeldAfter (lockHeldAfter b l1) l2 := by
  induction l1 generalizing b with
  | nil => rfl
  | cons e t ih => cases e <;> simp [lockHeldAfter, ih]

theorem exchangeWhileLocked_append (b : Bool) (l1 l2 : List Ev) :
    exchangeWhileLocked b (l1 ++ l2) =
      (exchangeWhileLocked b l1 || exchangeWhileLocked (lockHeldAfter b l1) l2) := by
  induction l1 generalizing b with
  | nil => rfl
  | cons e t ih =>
      cases e <;> simp [exchangeWhileLocked, lockHeldAfter, ih, Bool.or_assoc]

theorem poolAccessOutsideLock_append (b : Bool) (l1 l2 : List Ev) :
    poolAccessOutsideLock b (l1 ++ l2) =
      (poolAccessOutsideLock b l1 || poolAccessOutsideLock (lockHeldAfter b l1) l2) := by
  induction l1 generalizing b with
  | nil => rfl
  | cons e t ih =>
      cases e <;> simp [poolAccessOutsideLock, lockHeldAfter, isPoolEv, ih, Bool.or_assoc]

theorem lockHeldAfter_cons_other (b : Bool) (e : Ev) (t : List Ev)
    (he : isLockEv e = false) : lockHeldAfter b (e :: t) = lockHeldAfter b t := by
  cases e <;> first | rfl | simp [isLockEv] at he

theorem exchangeWhileLocked_cons_other (b : Bool) (e : Ev) (t : List Ev)
    (he : isLockEv e = false) :
    exchangeWhileLocked b (e :: t) = ((b && isExchangeEv e) || exchangeWhileLocked b t) := by
  cases e <;> first | rfl | simp [isLockEv] at he

theorem poolAccessOutsideLock_cons_other (b : Bool) (e : Ev) (t : List Ev)
    (he : isLockEv e = false) :
    poolAccessOutsideLock b (e :: t) = ((!b && isPoolEv e) || poolAccessOutsideLock b t) := by
  cases e <;> first | rfl | simp [isLockEv] at he

theorem lockHeldAfter_of_lockFree (l : List Ev) : ∀ b : Bool,
    l.all (fun e => !isLockEv e) = true → lockHeldAfter b l = b := by
  induction l with
  | nil => intro b _; rfl
  | cons e t ih =>
      intro b h
      rw [List.all_cons, Bool.and_eq_true] at h
      have he : isLockEv e = false := by simpa using h.1
      rw [lockHeldAfter_cons_other b e t he, ih b h.2]

theorem exchangeWhileLocked_of_lockFree (l : List Ev) : ∀ b : Bool,
    l.all (fun e => !isLockEv e) = true →
    exchangeWhileLocked b l = (b && l.any isExchangeEv) := by
  induction l with
  | nil => intro b _; simp [exchangeWhileLocked]
  | cons e t ih =>
      intro b h
      rw [List.all_cons, Bool.and_eq_true] at h
      have he : isLockEv e = false := by simpa using h.1
      rw [exchangeWhileLocked_cons_other b e t he, ih b h.2, List.any_cons,
        Bool.and_or_distrib_left]

theorem poolAccessOutsideLock_of_lockFree (l : List Ev) : ∀ b : Bool,
    l.all (fun e => !isLockEv e) = true →
    poolAccessOutsideLock b l = (!b && l.any isPoolEv) := by
  induction l with
  | nil => intro b _; simp [poolAccessOutsideLock]
  | cons e t ih =>
      intro b h
      rw [List.all_cons, Bool.and_eq_true] at h
      have he : isLockEv e = false := by simpa using h.1
      rw [poolAccessOutsideLock_cons_other b e t he, ih b h.2, List.any_cons,
        Bool.and_or_distrib_left]

theorem probeEvents_benign (c : PClient) :
    (probeEvents c).all (fun e => !isLockEv e && !isPoolEv e) = true := by
  unfold probeEvents
  cases c.hasPing <;> rfl

theorem reconnectLoop_events_benign (outcomes : Nat → AttemptOutcome) (maxRetries : Nat) :
    ∀ r a, ((reconnectLoop outcomes maxRetries a r).1).all
      (fun e => !isLockEv e && !isPoolEv e) = true := by
  intro r
  induction r with
  | zero => intro a; rfl
  | succ r ih =>
      intro a
      rw [reconnectLoop]
      cases houtcome : outcomes a with
      | raises =>
          by_cases hsl : a < maxRetries - 1 <;>
            simp_all [List.all_append, isLockEv, isPoolEv] <;>
            exact ih (a + 1)
      | built c pingOk =>
          have hp := probeEvents_benign c
          cases hH : healthCheckClient pingOk c <;>
            simp_all [List.all_append, List.all_cons, isLockEv, isPoolEv] <;>
            exact ih (a + 1)

/-- Weakening: a lock-and-pool-free event list is lock-free. -/
theorem all_lockFree_of_benign (l : List Ev)
    (h : l.all (fun e => !isLockEv e && !isPoolEv e) = true) :
    l.all (fun e => !isLockEv e) = true := by
  simp only [List.all_eq_true, Bool.and_eq_true] at h ⊢
  exact fun e he => (h e he).1

theorem getClientLocked_lockFree (st : PoolState) (canonical : String) (env : GetClientEnv) :
    ((getClientLocked st canonical env).1).all (fun e => !isLockEv e) = true := by
  have hrec := all_lockFree_of_benign _
    (reconnectLoop_events_benign env.reconnectOutcomes 3 3 0)
  unfold getClientLocked
  cases hl : st.pool.lookup canonical with
  | none =>
      cases hf : env.freshClient <;> simp [isLockEv]
  | some cached =>
      have hpr := all_lockFree_of_benign _ (probeEvents_benign cached)
      cases hh : healthCheckClient env.cachedPingOk cached with
      | true => simp_all [List.all_cons, isLockEv]
      | false =>
          cases hrc : (reconnectClient env.reconnectOutcomes 3).2 <;>
            cases hvc : st.versionChecked canonical <;>
              simp_all [reconnectClient, List.all_append, List.all_cons, isLockEv]

/-- Value of the three scanners on a well-formed acquisition trace:
a lock-free critical section, then the release, then a tail free of lock,
exchange and pool events. -/
theorem scanners_on_shape (inner tail : List Ev)
    (hin : inner.all (fun e => !isLockEv e) = true)
    (ht : tail.all (fun e => !isLockEv e && !isExchangeEv e && !isPoolEv e) = true) :
    exchangeWhileLocked false (Ev.lockAcquire :: (inner ++ Ev.lockRelease :: tail)) =
      inner.any isExchangeEv ∧
    poolAccessOutsideLock false (Ev.lockAcquire :: (inner ++ Ev.lockRelease :: tail)) = false ∧
    lockHeldAfter false (Ev.lockAcquire :: (inner ++ Ev.lockRelease :: tail)) = false := by
  have htLock : tail.all (fun e => !isLockEv e) = true := by
    simp only [List.all_eq_true, Bool.and_eq_true] at ht ⊢
    exact fun e he => (ht e he).1.1
  have htEx : tail.any isExchangeEv = false := by
    simp only [List.all_eq_true, Bool.and_eq_true] at ht
    simp only [List.any_eq_false]
    intro e he
    have := (ht e he).1.2
    simp_all
  have htPool : tail.any isPoolEv = false := by
    simp only [List.all_eq_true, Bool.and_eq_true] at ht
    simp only [List.any_eq_false]
    intro e he
    have := (ht e he).2
    simp_all
  have hheld : lockHeldAfter true inner = true := lockHeldAfter_of_lockFree inner true hin
  refine ⟨?_, ?_, ?_⟩
  · show exchangeWhileLocked true (inner ++ Ev.lockRelease :: tail) = _
    rw [exchangeWhileLocked_append, hheld]
    show (exchangeWhileLocked true inner || exchangeWhileLocked false tail) = _
    rw [exchangeWhileLocked_of_lockFree inner true hin,
      exchangeWhileLocked_of_lockFree tail false htLock]
    simp
  · show poolAccessOutsideLock true (inner ++ Ev.lockRelease :: tail) = _
    rw [poolAccessOutsideLock_append, hheld]
    show (poolAccessOutsideLock true inner || poolAccessOutsideLock false tail) = _
    rw [poolAccessOutsideLock_of_lockFree inner true hin,
      poolAccessOutsideLock_of_lockFree tail false htLock]
    simp [htPool]
  · show lockHeldAfter true (inner ++ Ev.lockRelease :: tail) = _
    rw [lockHeldAfter_append, hheld]
    show lockHeldAfter false tail = _
    exact lockHeldAfter_of_lockFree tail false htLock

/-- Every acquisition trace of _get_client is one lock-acquire, the
critical section, the release, and a lock-, exchange- and pool-free
version-check tail. -/
theorem getClientRun_trace_shape (st : PoolState) (canonical : String) (env : GetClientEnv) :
    ∃ tail, (getClientRun st canonical env).1 =
        Ev.lockAcquire :: ((getClientLocked st canonical env).1 ++ Ev.lockRelease :: tail) ∧
      tail.all (fun e => !isLockEv e && !isExchangeEv e && !isPoolEv e) = true := by
  cases hres : (getClientLocked st canonical env).2.2 with
  | error e =>
      refine ⟨[], ?_, rfl⟩
      simp [getClientRun, hres]
  | ok c =>
      by_cases hvc : (getClientLocked st canonical env).2.1.versionChecked canonical = true
      · refine ⟨[], ?_, rfl⟩
        simp [getClientRun, hres, hvc]
      · refine ⟨(if c.hasCheckVersion then [Ev.versionCheckCall c.cid] else []) ++
          [Ev.vcAdd canonical], ?_, ?_⟩
        · simp [getClientRun, hres, hvc]
        · cases c.hasCheckVersion <;> rfl

theorem getClientLocked_probe_exchanged (st : PoolState) (canonical : String)
    (env : GetClientEnv) (cached : PClient) (hca : st.pool.lookup canonical = some cached)
    (hping : cached.hasPing = true) :
    ((getClientLocked st canonical env).1).any isExchangeEv = true := by
  have hpe : probeEvents cached = [Ev.exchange "ping"] := by simp [probeEvents, hping]
  unfold getClientLocked
  rw [hca]
  by_cases hh : healthCheckClient env.cachedPingOk cached = true
  · simp [hh, hpe, isExchangeEv]
  · cases hrc : (reconnectClient env.reconnectOutcomes 3).2 <;>
      simp [hrc, hh, hpe, isExchangeEv, List.any_append]

/-- C1 (amended): every read or write of the pool mapping happens while
the single pool lock is held, the lock is released by the end of the
acquisition, and the actual operation exchange of the dispatcher —
performed after acquisition — runs outside the lock; but the lock is not
limited to in-memory work: it is held across the health-check ping of a
cached daemon handle (and across the whole reconnection sequence), so
any concurrent acquisition, also for a different workspace, waits on the
same lock meanwhile. -/
theorem c1_lock_discipline (st : PoolState) (canonical : String) (env : GetClientEnv) :
    poolAccessOutsideLock false (getClientRun st canonical env).1 = false ∧
    lockHeldAfter false (getClientRun st canonical env).1 = false ∧
    (∀ op, exchangeWhileLocked false ((getClientRun st canonical env).1 ++ [Ev.exchange op]) =
      exchangeWhileLocked false (getClientRun st canonical env).1) ∧
    (∀ cached, st.pool.lookup canonical = some cached → cached.hasPing = true →
      exchangeWhileLocked false (getClientRun st canonical env).1 = true) := by
  obtain ⟨tail, htr, htail⟩ := getClientRun_trace_shape st canonical env
  have hin := getClientLocked_lockFree st canonical env
  have hshape := scanners_on_shape (getClientLocked st canonical env).1 tail hin htail
  refine ⟨?_, ?_, ?_, ?_⟩
  · rw [htr]; exact hshape.2.1
  · rw [htr]; exact hshape.2.2
  · intro op
    rw [exchangeWhileLocked_append]
    have hend : lockHeldAfter false (getClientRun st canonical env).1 = false := by
      rw [htr]; exact hshape.2.2
    rw [hend]
    simp [exchangeWhileLocked]
  · intro cached hca hping
    rw [htr, hshape.1]
    exact getClientLocked_probe_exchanged st canonical env cached hca hping

/-- C1 counterexample: a request for a workspace with a cached daemon
handle performs the health-check ping — a full protocol exchange — while
holding the pool lock, refuting the claim that the lock is never held
across a protocol exchange and its consequence that handle acquisition
never blocks on the protocol work of another request: all acquisitions
contend on this one lock. -/
theorem c1_counterexample :
    exchangeWhileLocked false (getClientRun c1State "/w" c1Env).1 = true := by decide

/-- C1 witness: the lock-discipline theorem applied to the concrete
cached-handle state. -/
theorem c1_witness :
    poolAccessOutsideLock false (getClientRun c1State "/w" c1Env).1 = false ∧
    exchangeWhileLocked false (getClientRun c1State "/w" c1Env).1 = true := by
  have h := c1_lock_discipline c1State "/w" c1Env
  exact ⟨h.1, h.2.2.2 c1Client rfl rfl⟩

theorem lookup_not_mem (l : List (String × PClient)) (k : String)
    (h : k ∉ l.map Prod.fst) : l.lookup k = none := by
  induction l with
  | nil => rfl
  | cons kv t ih =>
      obtain ⟨k1, c1⟩ := kv
      simp only [List.map_cons, List.mem_cons, not_or] at h
      have hb : (k == k1) = false := by simp [h.1]
      simp [List.lookup, hb, ih h.2]

theorem lookup_poolErase_self (l : List (String × PClient)) (k : String)
    (hnd : (l.map Prod.fst).Nodup) : (poolErase l k).lookup k = none := by
  induction l with
  | nil => rfl
  | cons kv t ih =>
      obtain ⟨k1, c1⟩ := kv
      simp only [List.map_cons, List.nodup_cons] at hnd
      by_cases hk : k1 = k
      · subst hk
        rw [poolErase, List.eraseP_cons_of_pos (by simp)]
        exact lookup_not_mem t k1 hnd.1
      · rw [poolErase, List.eraseP_cons_of_neg (by simp [hk])]
        have hb : (k == k1) = false := by
          simp only [beq_eq_false_iff_ne, ne_eq]
          exact fun hc => hk hc.symm
        have hstep : ((k1, c1) :: List.eraseP (fun kv => kv.1 == k) t).lookup k =
            (List.eraseP (fun kv => kv.1 == k) t).lookup k := by
          simp only [List.lookup, hb]
        rw [hstep]
        exact ih hnd.2

theorem lookup_poolErase_ne (l : List (String × PClient)) (k k' : String) (hne : k' ≠ k) :
    (poolErase l k).lookup k' = l.lookup k' := by
  induction l with
  | nil => rfl
  | cons kv t ih =>
      obtain ⟨k1, c1⟩ := kv
      by_cases hk : k1 = k
      · subst hk
        rw [poolErase, List.eraseP_cons_of_pos (by simp)]
        have hb : (k' == k1) = false := by simp [hne]
        simp [List.lookup, hb]
      · rw [poolErase, List.eraseP_cons_of_neg (by simp [hk])]
        by_cases hk2 : k' = k1
        · subst hk2
          simp [List.lookup]
        · have hb : (k' == k1) = false := by simp [hk2]
          simp [List.lookup, hb]
          exact ih

theorem lookup_poolAppend_self (l : List (String × PClient)) (k : String) (c : PClient)
    (h : l.lookup k = none) : (poolAppend l k c).lookup k = some c := by
  induction l with
  | nil => simp [poolAppend, List.lookup]
  | cons kv t ih =>
      obtain ⟨k1, c1⟩ := kv
      by_cases hk : (k == k1) = true
      · simp [List.lookup, hk] at h
      · have hb : (k == k1) = false := by simpa using hk
        simp only [List.lookup, hb] at h
        show ((k1, c1) :: (t ++ [(k, c)])).lookup k = some c
        simp [List.lookup, hb]
        exact ih h

theorem lookup_poolAppend_ne (l : List (String × PClient)) (k : String) (c : PClient)
    (k' : String) (hne : k' ≠ k) : (poolAppend l k c).lookup k' = l.lookup k' := by
  induction l with
  | nil =>
      have hb : (k' == k) = false := by simp [hne]
      simp [poolAppend, List.lookup, hb]
  | cons kv t ih =>
      obtain ⟨k1, c1⟩ := kv
      show ((k1, c1) :: (t ++ [(k, c)])).lookup k' = _
      by_cases hk2 : k' = k1
      · subst hk2
        simp [List.lookup]
      · have hb : (k' == k1) = false := by simp [hk2]
        simp [List.lookup, hb]
        exact ih

/-- The version-check section after the lock leaves the pool mapping
untouched. -/
theorem getClientRun_pool_eq (st : PoolState) (canonical : String) (env : GetClientEnv) :
    (getClientRun st canonical env).2.1.pool = (getClientLocked st canonical env).2.1.pool := by
  cases hres : (getClientLocked st canonical env).2.2 with
  | error e => simp [getClientRun, hres]
  | ok c =>
      by_cases hvc : (getClientLocked st canonical env).2.1.versionChecked canonical = true <;>
        simp [getClientRun, hres, hvc]

/-- The version-check section does not change the returned result. -/
theorem getClientRun_result_eq (st : PoolState) (canonical : String) (env : GetClientEnv) :
    (getClientRun st canonical env).2.2 = (getClientLocked st canonical env).2.2 := by
  cases hres : (getClientLocked st canonical env).2.2 with
  | error e => simp [getClientRun, hres]
  | ok c =>
      by_cases hvc : (getClientLocked st canonical env).2.1.versionChecked canonical = true <;>
        simp [getClientRun, hres, hvc]

/-- Keys other than the canonical one are never touched by the critical
section. -/
theorem getClientLocked_pool_ne (st : PoolState) (canonical : String) (env : GetClientEnv)
    (k : String) (hk : k ≠ canonical) :
    ((getClientLocked st canonical env).2.1.pool).lookup k = st.pool.lookup k := by
  unfold getClientLocked
  cases hca : st.pool.lookup canonical with
  | none =>
      cases hf : env.freshClient <;>
        simp [lookup_poolAppend_ne _ _ _ _ hk]
  | some cached =>
      by_cases hh : healthCheckClient env.cachedPingOk cached = true
      · simp [hh]
      · cases hrc : (reconnectClient env.reconnectOutcomes 3).2 <;>
          simp [hh, hrc, lookup_poolAppend_ne _ _ _ _ hk, lookup_poolErase_ne _ _ _ hk]

/-- C8 (confirmed): per canonical workspace key the pool observes the
claimed lifecycle.  (a) On the first request the fresh handle is
installed and returned with no health probe: no protocol exchange at all
appears in the acquisition trace.  (b) An entry is removed or replaced
only when the probe of that very entry fails — the transition has no
notion of elapsed time — so entries of other workspaces and entries whose
probe succeeded survive unchanged.  (c) On a failed probe, the entry and
the version-checked marker of that workspace are discarded — the marker
discard preceding the installation of the replacement in the same
request trace — and the reconnected handle is installed and returned. -/
theorem c8_pool_lifecycle (st : PoolState) (canonical : String) (env : GetClientEnv)
    (hnd : (st.pool.map Prod.fst).Nodup) :
    (st.pool.lookup canonical = none → ∀ c, env.freshClient = .ok c →
      (getClientRun st canonical env).2.2 = .ok c ∧
      (getClientRun st canonical env).2.1.pool.lookup canonical = some c ∧
      ((getClientRun st canonical env).1).any isExchangeEv = false) ∧
    (∀ k c0, st.pool.lookup k = some c0 →
      (k ≠ canonical ∨ healthCheckClient env.cachedPingOk c0 = true) →
      (getClientRun st canonical env).2.1.pool.lookup k = some c0) ∧
    (∀ c0 nc, st.pool.lookup canonical = some c0 →
      healthCheckClient env.cachedPingOk c0 = false →
      st.versionChecked canonical = true →
      (reconnectClient env.reconnectOutcomes 3).2 = .ok nc →
      (getClientRun st canonical env).2.2 = .ok nc ∧
      (getClientRun st canonical env).2.1.pool.lookup canonical = some nc ∧
      (getClientRun st canonical env).1 =
        Ev.lockAcquire ::
          (((Ev.poolLookup canonical :: probeEvents c0) ++ [Ev.poolDelete canonical] ++
              [Ev.vcDiscard canonical] ++ (reconnectClient env.reconnectOutcomes 3).1 ++
              [Ev.poolInsert canonical nc.cid]) ++
            Ev.lockRelease ::
              ((if nc.hasCheckVersion then [Ev.versionCheckCall nc.cid] else []) ++
                [Ev.vcAdd canonical]))) := by
  refine ⟨?_, ?_, ?_⟩
  · intro hnone c hfresh
    have hlocked : getClientLocked st canonical env =
        ([Ev.poolLookup canonical, Ev.construct c.cid, Ev.poolInsert canonical c.cid],
         ⟨poolAppend st.pool canonical c, st.versionChecked⟩, .ok c) := by
      unfold getClientLocked
      rw [hnone, hfresh]
    obtain ⟨tail, htr, htail⟩ := getClientRun_trace_shape st canonical env
    have htEx : tail.any isExchangeEv = false := by
      simp only [List.all_eq_true, Bool.and_eq_true] at htail
      simp only [List.any_eq_false]
      intro e he
      have := (htail e he).1.2
      simp_all
    refine ⟨?_, ?_, ?_⟩
    · rw [getClientRun_result_eq, hlocked]
    · rw [getClientRun_pool_eq, hlocked]
      exact lookup_poolAppend_self st.pool canonical c hnone
    · rw [htr, hlocked]
      simp [List.any_append, List.any_cons, isExchangeEv, htEx]
  · intro k c0 hk0 hdisj
    by_cases hk : k = canonical
    · have hcac : st.pool.lookup canonical = some c0 := by rw [← hk]; exact hk0
      have hh : healthCheckClient env.cachedPingOk c0 = true := by
        rcases hdisj with h | h
        · exact absurd hk h
        · exact h
      have hlocked : (getClientLocked st canonical env).2.1.pool = st.pool := by
        unfold getClientLocked
        rw [hcac]
        simp [hh]
      rw [getClientRun_pool_eq, hlocked]
      exact hk0
    · rw [getClientRun_pool_eq, getClientLocked_pool_ne st canonical env k hk]
      exact hk0
  · intro c0 nc hca hh hvc hrc
    have hlocked : getClientLocked st canonical env =
        ((Ev.poolLookup canonical :: probeEvents c0) ++ [Ev.poolDelete canonical] ++
           [Ev.vcDiscard canonical] ++ (reconnectClient env.reconnectOutcomes 3).1 ++
           [Ev.poolInsert canonical nc.cid],
         ⟨poolAppend (poolErase st.pool canonical) canonical nc,
          fun k => if k == canonical then false else st.versionChecked k⟩, .ok nc) := by
      unfold getClientLocked
      rw [hca]
      simp [hh, hvc, hrc]
    have hvc2 : (getClientLocked st canonical env).2.1.versionChecked canonical = false := by
      rw [hlocked]
      simp
    refine ⟨?_, ?_, ?_⟩
    · rw [getClientRun_result_eq, hlocked]
    · rw [getClientRun_pool_eq, hlocked]
      exact lookup_poolAppend_self _ _ _ (lookup_poolErase_self st.pool canonical hnd)
    · have hres : (getClientLocked st canonical env).2.2 = .ok nc := by rw [hlocked]
      simp only [getClientRun, hres, hvc2, Bool.false_eq_true, if_false]
      rw [hlocked]

/-- C8 witness: the lifecycle theorem applied to a concrete eviction (the
unhealthy cached handle is replaced in place) and to a concrete first
request installing a fresh handle. -/
theorem c8_witness :
    ((getClientRun c8State "/w" c8Env).2.2 = .ok c8NewClient ∧
      (getClientRun c8State "/w" c8Env).2.1.pool.lookup "/w" = some c8NewClient) ∧
    (getClientRun { pool := [], versionChecked := fun _ => false } "/v"
        { cachedPingOk := true, reconnectOutcomes := fun _ => .raises,
          freshClient := .ok c8NewClient }).2.2 = .ok c8NewClient := by
  have h1 := (c8_pool_lifecycle c8State "/w" c8Env (by decide)).2.2 c8OldClient c8NewClient
    rfl rfl rfl rfl
  have h2 := (c8_pool_lifecycle { pool := [], versionChecked := fun _ => false } "/v"
    { cachedPingOk := true, reconnectOutcomes := fun _ => .raises,
      freshClient := .ok c8NewClient } (by decide)).1 rfl c8NewClient rfl
  exact ⟨⟨h1.1, h1.2.1⟩, h2.1⟩

theorem sendRequestCore_requestSent (c : DaemonClientData) (operation : String)
    (args : List (String × String)) (sockPath : List String) (readRes : ReadOutcome) :
    (sendRequestCore c operation args sockPath .opened readRes).requestSent =
      some { operation := operation, args := args, cwd := c.workingDir, actor := c.actor } := by
  cases readRes with
  | line resp => by_cases hs : resp.success = true <;> simp [sendRequestCore, hs]
  | emptyRead => rfl
  | timedOut => rfl

theorem sendRequestCore_readTimeout (c : DaemonClientData) (operation : String)
    (args : List (String × String)) (sockPath : List String) (readRes : ReadOutcome) :
    (sendRequestCore c operation args sockPath .opened readRes).appliedReadTimeout =
      some c.timeout := by
  cases readRes with
  | line resp => by_cases hs : resp.success = true <;> simp [sendRequestCore, hs]
  | emptyRead => rfl
  | timedOut => rfl

/-- C9 counterexample: for the default daemon client (timeout 30.0 s) the
read timeout the probe applies to its ping equals the read timeout of a
normal operation — 30 s as well — so the probe has no shorter timeout
independent of the normal operation timeout. -/
theorem c9_counterexample :
    (pingExchange c2Fs (defaultClient ["a"]) .opened .timedOut).appliedReadTimeout = some 30 ∧
    (sendRequest c2Fs (defaultClient ["a"]) "list" [] .opened .timedOut).appliedReadTimeout =
      some 30 ∧
    ¬ ∃ t : ℚ, (pingExchange c2Fs (defaultClient ["a"]) .opened
        .timedOut).appliedReadTimeout = some t ∧ t < 30 := by
  have h30 : (pingExchange c2Fs (defaultClient ["a"]) .opened .timedOut).appliedReadTimeout =
      some 30 := rfl
  refine ⟨h30, rfl, ?_⟩
  rintro ⟨t, ht, hlt⟩
  rw [h30] at ht
  injection ht with ht2
  rw [← ht2] at hlt
  exact absurd hlt (lt_irrefl (30 : ℚ))

/-- C9 (amended): the probe issues the minimal no-argument liveness
exchange — operation "ping" with empty args — against the handle under
test, applying the timeout of the handle itself, the same self.timeout
every normal operation applies, so there is no independent short probe
timeout; and a handle type with no liveness operation is unconditionally
reported healthy. -/
theorem c9_health_probe (fs : Fsys) (c : DaemonClientData) (readRes : ReadOutcome)
    (operation : String) (args : List (String × String)) :
    (∀ req, (pingExchange fs c .opened readRes).requestSent = some req →
      req.operation = "ping" ∧ req.args = []) ∧
    (pingExchange fs c .opened readRes).appliedReadTimeout =
      (sendRequest fs c operation args .opened readRes).appliedReadTimeout ∧
    (∀ pc : PClient, ∀ pingOk : Bool, pc.hasPing = false →
      healthCheckClient pingOk pc = true) := by
  refine ⟨?_, ?_, ?_⟩
  · intro req hreq
    unfold pingExchange sendRequest at hreq
    cases hsp : findSocketPath fs c.socketPath c.workingDir with
    | error e =>
        rw [hsp] at hreq
        simp at hreq
    | ok sp =>
        rw [hsp] at hreq
        rw [sendRequestCore_requestSent] at hreq
        injection hreq with h
        rw [← h]
        exact ⟨rfl, rfl⟩
  · unfold pingExchange sendRequest
    cases hsp : findSocketPath fs c.socketPath c.workingDir with
    | error e => rfl
    | ok sp => rw [sendRequestCore_readTimeout, sendRequestCore_readTimeout]
  · intro pc pingOk h
    simp [healthCheckClient, h]

/-- C9 witness: the amended probe theorem applied to the concrete
ping-less client: the probe reports healthy unconditionally. -/
theorem c9_witness : healthCheckClient false c9CliClient = true :=
  (c9_health_probe c2Fs (defaultClient ["a"]) .timedOut "list" []).2.2 c9CliClient false rfl

end Beads

